import Mathlib

/-!
# Verification of the TME-6015 fuzzy inference system

This file embeds the fuzzy inference system of `FIS/PythonFISFunction.py`
in Lean 4 and proves properties of it.  The membership-function data, the
universes of discourse and the 28-rule table are transcribed directly from
`fis_create`; the inference pipeline that `fis_solve` delegates to the
scikit-fuzzy control library (fuzzification, min-AND firing strengths,
min-clipping, max-aggregation, centroid defuzzification, boundary clamping
of crisp inputs and the degenerate-output failure) is modelled from the
specification, since the library code is not part of the repository.
All arithmetic is over `ℚ`, which represents the rational breakpoints of
the model exactly.
-/

namespace FIS

/-- The four input linguistic variables of the system. -/
inductive FVar where
  | LH | DTT | TDT | CAP
deriving DecidableEq, Repr

/-- A triangular membership function, specified by its three breakpoints
`a ≤ b ≤ c` (transcribed from the `fuzz.trimf` calls in `fis_create`). -/
structure Trimf where
  a : ℚ
  b : ℚ
  c : ℚ
deriving DecidableEq, Repr

/-- Well-formedness of a triangular membership function: the breakpoints
are non-decreasing, as `fuzz.trimf` asserts. -/
def Trimf.wf (t : Trimf) : Prop := t.a ≤ t.b ∧ t.b ≤ t.c

instance (t : Trimf) : Decidable t.wf := by unfold Trimf.wf; infer_instance

/-- Modelled from the spec: the triangular membership function has value 0
at/outside `[a,c]`, 1 at `b`, and is linear in between; the degenerate case
`a = b = c` is 1 only at that single point and 0 elsewhere. -/
def trimf (a b c x : ℚ) : ℚ :=
  if x = b then 1
  else if a < x ∧ x < b then (x - a) / (b - a)
  else if b < x ∧ x < c then (c - x) / (c - b)
  else 0

/-- Membership degree of a crisp value under a triangular term. -/
def memDeg (t : Trimf) (x : ℚ) : ℚ := trimf t.a t.b t.c x

/-- An antecedent clause: a (variable, term) pair. -/
abbrev Clause := FVar × Trimf

/-- A fuzzy rule: a conjunction of antecedent clauses and one consequent
term on the output variable (`ctrl.Rule` in the source). -/
structure Rule where
  ante : List Clause
  cons : Trimf
deriving DecidableEq, Repr

/-! ## Universes of discourse (transcribed from `fis_create`) -/

def lh_range : List ℚ := [0, 5/6, 4, 5, 6, 55/6, 10]
def dtt_range : List ℚ := [0, 25/12, 10, 25/2, 15, 275/12, 25]
def tdt_range : List ℚ := [0, 25/6, 15, 25, 30, 275/6, 50]
def cap_range : List ℚ := [0, 1]
def suit_range : List ℚ :=
  [0, 5/12, 25/12, 5/2, 35/12, 55/12, 5, 65/12, 85/12, 15/2, 95/12, 115/12, 10]

/-! ## Membership functions (transcribed from `fis_create`) -/

def lhLow : Trimf := ⟨0, 0, 6⟩
def lhMedium : Trimf := ⟨5/6, 5, 55/6⟩
def lhHigh : Trimf := ⟨4, 10, 10⟩

def dttLow : Trimf := ⟨0, 0, 15⟩
def dttMedium : Trimf := ⟨25/12, 25/2, 275/12⟩
def dttHigh : Trimf := ⟨10, 25, 25⟩

def tdtLow : Trimf := ⟨0, 0, 30⟩
def tdtMedium : Trimf := ⟨25/6, 25, 275/6⟩
def tdtHigh : Trimf := ⟨15, 50, 50⟩

def capNoMatch : Trimf := ⟨0, 0, 0⟩
def capMatched : Trimf := ⟨1, 1, 1⟩

def suitUnacceptable : Trimf := ⟨0, 0, 0⟩
def suitVeryLow : Trimf := ⟨0, 0, 25/12⟩
def suitLow : Trimf := ⟨5/12, 5/2, 55/12⟩
def suitMedium : Trimf := ⟨35/12, 5, 85/12⟩
def suitHigh : Trimf := ⟨65/12, 15/2, 115/12⟩
def suitVeryHigh : Trimf := ⟨95/12, 10, 10⟩

/-- All membership functions defined in the model. -/
def modelMFs : List Trimf :=
  [lhLow, lhMedium, lhHigh, dttLow, dttMedium, dttHigh,
   tdtLow, tdtMedium, tdtHigh, capNoMatch, capMatched,
   suitUnacceptable, suitVeryLow, suitLow, suitMedium, suitHigh, suitVeryHigh]

/-- Shorthand for a matched-case rule: the three numeric antecedent terms
conjoined with capability `Matched`, as in Rules 01–27 of the source. -/
def mRule (l d t : Trimf) (s : Trimf) : Rule :=
  ⟨[(FVar.LH, l), (FVar.DTT, d), (FVar.TDT, t), (FVar.CAP, capMatched)], s⟩

/-- The rule base built by `fis_create`: 27 matched-case rules followed by
the catch-all rule 28 (`cap No Match ⇒ Unacceptable`), in source order. -/
def fis_create : List Rule :=
  [ mRule lhLow dttLow tdtLow suitVeryHigh        -- Rule 01
  , mRule lhMedium dttLow tdtLow suitHigh         -- Rule 02
  , mRule lhHigh dttLow tdtLow suitMedium         -- Rule 03
  , mRule lhLow dttMedium tdtLow suitHigh         -- Rule 04
  , mRule lhMedium dttMedium tdtLow suitMedium    -- Rule 05
  , mRule lhHigh dttMedium tdtLow suitMedium      -- Rule 06
  , mRule lhLow dttHigh tdtLow suitMedium         -- Rule 07
  , mRule lhMedium dttHigh tdtLow suitMedium      -- Rule 08
  , mRule lhHigh dttHigh tdtLow suitLow           -- Rule 09
  , mRule lhLow dttLow tdtMedium suitHigh         -- Rule 10
  , mRule lhMedium dttLow tdtMedium suitMedium    -- Rule 11
  , mRule lhHigh dttLow tdtMedium suitMedium      -- Rule 12
  , mRule lhLow dttMedium tdtMedium suitMedium    -- Rule 13
  , mRule lhMedium dttMedium tdtMedium suitLow    -- Rule 14
  , mRule lhHigh dttMedium tdtMedium suitLow      -- Rule 15
  , mRule lhLow dttHigh tdtMedium suitMedium      -- Rule 16
  , mRule lhMedium dttHigh tdtMedium suitLow      -- Rule 17
  , mRule lhHigh dttHigh tdtMedium suitVeryLow    -- Rule 18
  , mRule lhLow dttLow tdtHigh suitMedium         -- Rule 19
  , mRule lhMedium dttLow tdtHigh suitMedium      -- Rule 20
  , mRule lhHigh dttLow tdtHigh suitLow           -- Rule 21
  , mRule lhLow dttMedium tdtHigh suitMedium      -- Rule 22
  , mRule lhMedium dttMedium tdtHigh suitLow      -- Rule 23
  , mRule lhHigh dttMedium tdtHigh suitVeryLow    -- Rule 24
  , mRule lhLow dttHigh tdtHigh suitLow           -- Rule 25
  , mRule lhMedium dttHigh tdtHigh suitVeryLow    -- Rule 26
  , mRule lhHigh dttHigh tdtHigh suitVeryLow      -- Rule 27
  , ⟨[(FVar.CAP, capNoMatch)], suitUnacceptable⟩  -- Rule 28
  ]

/-! ## The inference engine (modelled from the spec) -/

/-- One crisp input tuple (an evaluation context). -/
structure Inputs where
  load : ℚ
  distance : ℚ
  travelled : ℚ
  cap : ℚ
deriving DecidableEq, Repr

/-- Crisp value of a variable in an evaluation context. -/
def Inputs.get (i : Inputs) : FVar → ℚ
  | FVar.LH => i.load
  | FVar.DTT => i.distance
  | FVar.TDT => i.travelled
  | FVar.CAP => i.cap

/-- Modelled from the spec: out-of-range crisp inputs are clamped to the
universe boundary before fuzzification. -/
def clamp (lo hi x : ℚ) : ℚ := max lo (min x hi)

/-- First element of a universe sample list (its lower bound). -/
def uMin (u : List ℚ) : ℚ := u.headD 0

/-- Last element of a universe sample list (its upper bound). -/
def uMax (u : List ℚ) : ℚ := u.getLastD 0

/-- The evaluation context built from the four crisp inputs of
`fis_solve`, each clamped to its variable's universe. -/
def fuzzInputs (load distance travelled cap : ℚ) : Inputs :=
  ⟨clamp (uMin lh_range) (uMax lh_range) load,
   clamp (uMin dtt_range) (uMax dtt_range) distance,
   clamp (uMin tdt_range) (uMax tdt_range) travelled,
   clamp (uMin cap_range) (uMax cap_range) cap⟩

/-- Membership degree of one antecedent clause in a context. -/
def clauseDeg (i : Inputs) (cl : Clause) : ℚ := memDeg cl.2 (i.get cl.1)

/-- Modelled from the spec: a rule's firing strength is the fuzzy AND
(minimum) of its antecedent clauses' membership degrees. -/
def fireStrength (i : Inputs) (r : Rule) : ℚ :=
  r.ante.foldr (fun cl s => min (clauseDeg i cl) s) 1

/-- Modelled from the spec: aggregated output membership at one output
sample point — the maximum over all rules of the rule's consequent curve
clipped (minimum) by its firing strength. -/
def aggAt (rb : List Rule) (i : Inputs) (p : ℚ) : ℚ :=
  rb.foldr (fun r m => max (min (fireStrength i r) (memDeg r.cons p)) m) 0

/-- Denominator of the centroid: the sum of aggregated degrees. -/
def sumDen (rb : List Rule) (i : Inputs) : ℚ :=
  (suit_range.map (aggAt rb i)).sum

/-- Numerator of the centroid: the sum of point × aggregated degree. -/
def sumNum (rb : List Rule) (i : Inputs) : ℚ :=
  (suit_range.map (fun p => p * aggAt rb i p)).sum

/-- The inference pipeline of `fis_solve`.  The Mamdani engine that the
source delegates to the scikit-fuzzy control library is modelled from the
spec: clamp inputs, fire each rule with min-AND, clip consequents, take
the pointwise maximum, and defuzzify by the discrete centroid
`Σ(point × degree) / Σ(degree)` over the output universe samples.
A zero aggregated curve makes the centroid undefined and is reported as
`none` (the spec's degenerate-output error). -/
def fis_solve (rb : List Rule) (load distance travelled cap : ℚ) : Option ℚ :=
  let i := fuzzInputs load distance travelled cap
  if sumDen rb i = 0 then none
  else some (sumNum rb i / sumDen rb i)

/-- State-passing form of `fis_solve`: the call receives the rule base and
hands it back unchanged, reflecting that the Python function only reads
the rule list (a fresh `ControlSystemSimulation` is built per call). -/
def fis_solve_st (rb : List Rule) (load distance travelled cap : ℚ) :
    Option ℚ × List Rule :=
  (fis_solve rb load distance travelled cap, rb)

/-- The rule base threaded through a sequence of `fis_solve_st` calls. -/
def runCalls (rb : List Rule) (calls : List (ℚ × ℚ × ℚ × ℚ)) : List Rule :=
  calls.foldl (fun s i => (fis_solve_st s i.1 i.2.1 i.2.2.1 i.2.2.2).2) rb

/-- Modelled from the spec: the input-domain diagnostic surfaced when a
crisp input lies outside its variable's universe range. -/
def fis_diag (load distance travelled cap : ℚ) : Bool :=
  decide (load < uMin lh_range ∨ uMax lh_range < load ∨
          distance < uMin dtt_range ∨ uMax dtt_range < distance ∨
          travelled < uMin tdt_range ∨ uMax tdt_range < travelled ∨
          cap < uMin cap_range ∨ uMax cap_range < cap)

/-- The Mamdani reference pipeline exactly as the specification describes
it: each rule's firing strength is the minimum of its antecedent clauses'
membership degrees, each rule's consequent curve is clipped by pointwise
minimum with that strength, the 28 clipped curves are aggregated by
pointwise maximum, and the crisp output is the discrete centroid
`Σ(point × aggregatedDegree) / Σ(aggregatedDegree)` over the output
universe's sample points. -/
def mamdaniReference (load distance travelled cap : ℚ) : Option ℚ :=
  let i := fuzzInputs load distance travelled cap
  let strength : Rule → ℚ := fun r => (r.ante.map (clauseDeg i)).foldr min 1
  let clipped : List (ℚ → ℚ) :=
    fis_create.map (fun r => fun p => min (strength r) (memDeg r.cons p))
  let agg : ℚ → ℚ := fun p => (clipped.map (fun f => f p)).foldr max 0
  let num := (suit_range.map (fun p => p * agg p)).sum
  let den := (suit_range.map (fun p => agg p)).sum
  if den = 0 then none else some (num / den)

/-- The antecedent lists of the 27 matched-case rules: the 3×3×3 grid of
Low/Medium/High terms of the three numeric variables, each conjoined with
capability `Matched`. -/
def gridAntes : List (List Clause) :=
  ([tdtLow, tdtMedium, tdtHigh].flatMap fun t =>
    ([dttLow, dttMedium, dttHigh].flatMap fun d =>
      ([lhLow, lhMedium, lhHigh].map fun l =>
        [(FVar.LH, l), (FVar.DTT, d), (FVar.TDT, t), (FVar.CAP, capMatched)])))

/-! ## Basic properties of triangular membership functions -/

theorem trimf_nonneg {a b c : ℚ} (hab : a ≤ b) (hbc : b ≤ c) (x : ℚ) :
    0 ≤ trimf a b c x := by
  unfold trimf
  split_ifs with h1 h2 h3
  · norm_num
  · exact div_nonneg (by linarith [h2.1]) (by linarith [h2.1, h2.2])
  · exact div_nonneg (by linarith [h3.2]) (by linarith [h3.1, h3.2])
  · norm_num

theorem trimf_le_one {a b c : ℚ} (hab : a ≤ b) (hbc : b ≤ c) (x : ℚ) :
    trimf a b c x ≤ 1 := by
  unfold trimf
  split_ifs with h1 h2 h3
  · norm_num
  · rw [div_le_one (by linarith [h2.1, h2.2])]; linarith [h2.2]
  · rw [div_le_one (by linarith [h3.1, h3.2])]; linarith [h3.1]
  · norm_num

theorem memDeg_nonneg {t : Trimf} (h : t.wf) (x : ℚ) : 0 ≤ memDeg t x :=
  trimf_nonneg h.1 h.2 x

theorem memDeg_le_one {t : Trimf} (h : t.wf) (x : ℚ) : memDeg t x ≤ 1 :=
  trimf_le_one h.1 h.2 x

/-- The membership degree at the peak breakpoint is 1. -/
theorem trimf_peak (a b c : ℚ) : trimf a b c b = 1 := by
  unfold trimf; simp

/-- The membership degree vanishes strictly outside `[a, c]`. -/
theorem trimf_outside {a b c x : ℚ} (hab : a ≤ b) (hbc : b ≤ c)
    (h : x < a ∨ c < x) : trimf a b c x = 0 := by
  unfold trimf
  rcases h with h | h <;> split_ifs with h1 h2 h3 <;>
    first
    | rfl
    | (exfalso; first
        | linarith [h2.1, h2.2]
        | linarith [h3.1, h3.2]
        | (subst h1; linarith))

/-- On the rising edge `[a, b]` (when `a < b`) the membership function is
the linear interpolation from 0 at `a` to 1 at `b`. -/
theorem trimf_left_lin {a b c x : ℚ} (hab : a < b) (h1 : a ≤ x)
    (h2 : x ≤ b) : trimf a b c x = (x - a) / (b - a) := by
  unfold trimf
  split_ifs with hb hm hr
  · subst hb; rw [div_self (by linarith)]
  · rfl
  · exfalso; linarith [hr.1]
  · have hxa : x = a := by
      rcases lt_or_eq_of_le h1 with h | h
      · exact absurd ⟨h, lt_of_le_of_ne h2 hb⟩ hm
      · exact h.symm
    subst hxa; rw [sub_self, zero_div]

/-- On the falling edge `[b, c]` (when `b < c`) the membership function is
the linear interpolation from 1 at `b` to 0 at `c`. -/
theorem trimf_right_lin {a b c x : ℚ} (hbc : b < c) (h1 : b ≤ x)
    (h2 : x ≤ c) : trimf a b c x = (c - x) / (c - b) := by
  unfold trimf
  split_ifs with hb hm hr
  · subst hb; rw [div_self (by linarith)]
  · exfalso; linarith [hm.2]
  · rfl
  · have hxc : x = c := by
      rcases lt_or_eq_of_le h2 with h | h
      · exact absurd ⟨lt_of_le_of_ne h1 (Ne.symm hb), h⟩ hr
      · exact h
    subst hxc; rw [sub_self, zero_div]

/-- A degenerate triangular membership function `a = b = c` is 1 exactly
at its single breakpoint and 0 elsewhere. -/
theorem trimf_point (b x : ℚ) : trimf b b b x = if x = b then 1 else 0 := by
  unfold trimf
  split_ifs with h1 h2 h3 <;>
    first
    | rfl
    | (exfalso; first | linarith [h2.1, h2.2] | linarith [h3.1, h3.2])

/-- Every membership function in the model has non-decreasing breakpoints. -/
theorem modelMFs_wf : ∀ t ∈ modelMFs, t.wf := by
  intro t ht
  simp only [modelMFs, List.mem_cons, List.not_mem_nil, or_false] at ht
  rcases ht with h|h|h|h|h|h|h|h|h|h|h|h|h|h|h|h|h <;> subst h <;>
    constructor <;>
    norm_num [lhLow, lhMedium, lhHigh, dttLow, dttMedium, dttHigh, tdtLow,
      tdtMedium, tdtHigh, capNoMatch, capMatched, suitUnacceptable,
      suitVeryLow, suitLow, suitMedium, suitHigh, suitVeryHigh]

/-- The rule base is returned unchanged by any sequence of solver calls. -/
theorem runCalls_eq (rb : List Rule) (calls : List (ℚ × ℚ × ℚ × ℚ)) :
    runCalls rb calls = rb := by
  induction calls generalizing rb with
  | nil => rfl
  | cons hd tl ih => exact ih rb

/-! ## Well-formedness of the model's terms -/

theorem lhLow_wf : lhLow.wf := by constructor <;> norm_num [lhLow]

theorem lhMedium_wf : lhMedium.wf := by constructor <;> norm_num [lhMedium]

theorem lhHigh_wf : lhHigh.wf := by constructor <;> norm_num [lhHigh]

theorem dttLow_wf : dttLow.wf := by constructor <;> norm_num [dttLow]

theorem dttMedium_wf : dttMedium.wf := by constructor <;> norm_num [dttMedium]

theorem dttHigh_wf : dttHigh.wf := by constructor <;> norm_num [dttHigh]

theorem tdtLow_wf : tdtLow.wf := by constructor <;> norm_num [tdtLow]

theorem tdtMedium_wf : tdtMedium.wf := by constructor <;> norm_num [tdtMedium]

theorem tdtHigh_wf : tdtHigh.wf := by constructor <;> norm_num [tdtHigh]

theorem suitUnacceptable_wf : suitUnacceptable.wf := by
  constructor <;> norm_num [suitUnacceptable]

theorem suitVeryLow_wf : suitVeryLow.wf := by
  constructor <;> norm_num [suitVeryLow]

theorem suitLow_wf : suitLow.wf := by constructor <;> norm_num [suitLow]

theorem suitMedium_wf : suitMedium.wf := by constructor <;> norm_num [suitMedium]

theorem suitHigh_wf : suitHigh.wf := by constructor <;> norm_num [suitHigh]

theorem suitVeryHigh_wf : suitVeryHigh.wf := by
  constructor <;> norm_num [suitVeryHigh]

/-! ## Universe bounds and rule projections -/

theorem uMin_lh : uMin lh_range = 0 := rfl

theorem uMax_lh : uMax lh_range = 10 := rfl

theorem uMin_dtt : uMin dtt_range = 0 := rfl

theorem uMax_dtt : uMax dtt_range = 25 := rfl

theorem uMin_tdt : uMin tdt_range = 0 := rfl

theorem uMax_tdt : uMax tdt_range = 50 := rfl

theorem uMin_cap : uMin cap_range = 0 := rfl

theorem uMax_cap : uMax cap_range = 1 := rfl

theorem mRule_cons (l d t s : Trimf) : (mRule l d t s).cons = s := rfl

/-! ## Firing-strength shapes -/

/-- Firing strength of a matched-case rule: the minimum over its four
antecedent degrees. -/
theorem fireStrength_mRule (i : Inputs) (l d t s : Trimf) :
    fireStrength i (mRule l d t s) =
      min (memDeg l i.load) (min (memDeg d i.distance)
        (min (memDeg t i.travelled) (min (memDeg capMatched i.cap) 1))) := by
  simp [fireStrength, mRule, clauseDeg, Inputs.get]

/-- Firing strength of the catch-all rule 28. -/
theorem fireStrength_catchAll (i : Inputs) :
    fireStrength i (⟨[(FVar.CAP, capNoMatch)], suitUnacceptable⟩ : Rule) =
      min (memDeg capNoMatch i.cap) 1 := by
  simp [fireStrength, clauseDeg, Inputs.get]

/-! ## Claim theorems -/

/-- C6: each membership function built with degenerate breakpoints
`a = b = c` — capability `No Match` `[0,0,0]`, capability `Matched`
`[1,1,1]` and suitability `Unacceptable` `[0,0,0]` — assigns degree 1
exactly at that single point and degree 0 at every other value. -/
theorem C6_degenerate_point (x : ℚ) :
    memDeg capNoMatch x = (if x = 0 then 1 else 0) ∧
    memDeg capMatched x = (if x = 1 then 1 else 0) ∧
    memDeg suitUnacceptable x = (if x = 0 then 1 else 0) :=
  ⟨trimf_point 0 x, trimf_point 1 x, trimf_point 0 x⟩

/-- C5 counterexample: the claim asserts degree 0 at breakpoint `a` for
every membership function of the model, but `lh Low = [0, 0, 6]` is a
member of the model with `a ≤ b ≤ c` whose degree at `a = 0` is 1. -/
theorem C5_counterexample :
    lhLow ∈ modelMFs ∧ lhLow.wf ∧ ¬ memDeg lhLow lhLow.a = 0 := by
  refine ⟨List.mem_cons_self _ _, ⟨by norm_num [lhLow], by norm_num [lhLow]⟩, ?_⟩
  norm_num [memDeg, trimf, lhLow]

/-- C5 (amended): for every membership function of the model, the degree
is 1 at `b` and 0 strictly outside `[a, c]`; when `a < b` the degree is 0
at `a` and linearly interpolated on `[a, b]`, and when `b < c` the degree
is 0 at `c` and linearly interpolated on `[b, c]` (the two linear pieces
agree at `b`, which is the continuity of the curve); shoulder functions
with `a = b` or `b = c` instead take the value 1 at the shared
breakpoint. -/
theorem C5_triangular_shape :
    ∀ t ∈ modelMFs,
      memDeg t t.b = 1 ∧
      (∀ x, x < t.a ∨ t.c < x → memDeg t x = 0) ∧
      (t.a < t.b → memDeg t t.a = 0 ∧
        ∀ x, t.a ≤ x → x ≤ t.b → memDeg t x = (x - t.a) / (t.b - t.a)) ∧
      (t.b < t.c → memDeg t t.c = 0 ∧
        ∀ x, t.b ≤ x → x ≤ t.c → memDeg t x = (t.c - x) / (t.c - t.b)) := by
  intro t ht
  obtain ⟨hab, hbc⟩ := modelMFs_wf t ht
  refine ⟨trimf_peak _ _ _, fun x hx => trimf_outside hab hbc hx, ?_, ?_⟩
  · intro h
    refine ⟨?_, fun x h1 h2 => trimf_left_lin h h1 h2⟩
    show trimf t.a t.b t.c t.a = 0
    rw [trimf_left_lin h le_rfl hab, sub_self, zero_div]
  · intro h
    refine ⟨?_, fun x h1 h2 => trimf_right_lin h h1 h2⟩
    show trimf t.a t.b t.c t.c = 0
    rw [trimf_right_lin h hbc le_rfl, sub_self, zero_div]

/-- C5 witness: the amended shape theorem applied to the `lh Medium` term
`[5/6, 5, 55/6]`, whose rising edge gives degree `(3 - 5/6)/(5 - 5/6)` =
`26/50` at load 3. -/
theorem C5_triangular_shape_witness : memDeg lhMedium 3 = 13 / 25 := by
  have h := (C5_triangular_shape lhMedium (by
      simp [modelMFs])).2.2.1 (by norm_num [lhMedium])
  rw [h.2 3 (by norm_num [lhMedium]) (by norm_num [lhMedium])]
  norm_num [lhMedium]

/-- C4: the rule base returned by `fis_create` has exactly 28 rules — the
27 antecedents are exactly the 3×3×3 grid of Low/Medium/High terms of the
three numeric input variables each conjoined with capability `Matched`,
followed by the catch-all rule mapping capability `No Match` to
`Unacceptable` — and any number of solver calls leaves the rule base
unchanged. -/
theorem C4_rulebase_invariant :
    fis_create.length = 28 ∧
    fis_create.map Rule.ante = gridAntes ++ [[(FVar.CAP, capNoMatch)]] ∧
    fis_create.getLast? = some ⟨[(FVar.CAP, capNoMatch)], suitUnacceptable⟩ ∧
    ∀ calls : List (ℚ × ℚ × ℚ × ℚ), runCalls fis_create calls = fis_create :=
  ⟨rfl, rfl, rfl, runCalls_eq fis_create⟩

/-- C9: the solver is deterministic and stateless — the rule base handed
back by a call is the one passed in, a repeated call after a first call
with the same inputs returns the same output, and running any list of
earlier evaluations does not change the result of a later one. -/
theorem C9_deterministic_stateless (rb : List Rule) (load distance travelled cap : ℚ)
    (prev : List (ℚ × ℚ × ℚ × ℚ)) :
    (fis_solve_st rb load distance travelled cap).2 = rb ∧
    (fis_solve_st (fis_solve_st rb load distance travelled cap).2
        load distance travelled cap).1 =
      (fis_solve_st rb load distance travelled cap).1 ∧
    (fis_solve_st (runCalls rb prev) load distance travelled cap).1 =
      (fis_solve_st rb load distance travelled cap).1 := by
  refine ⟨rfl, rfl, ?_⟩
  rw [runCalls_eq]

/-- C1: on every crisp input tuple, `fis_solve` on the 28-rule base of
`fis_create` computes exactly the Mamdani reference pipeline over the
sampled universes — min-AND firing strengths, min-clipped consequents,
pointwise-max aggregation over the 28 rules, and the discrete centroid
`Σ(point × degree) / Σ(degree)` over the output universe samples. -/
theorem C1_mamdani_pipeline (load distance travelled cap : ℚ) :
    fis_solve fis_create load distance travelled cap =
      mamdaniReference load distance travelled cap := by
  unfold fis_solve mamdaniReference sumNum sumDen aggAt fireStrength
  simp only [List.map_map, List.foldr_map, Function.comp]

set_option maxRecDepth 8000 in
set_option maxHeartbeats 1000000 in
/-- With capability 0 every matched-case rule has firing strength 0 and
the solver returns the centroid of the `Unacceptable` term, 0. -/
theorem solve_cap_zero (load distance travelled : ℚ) :
    fis_solve fis_create load distance travelled 0 = some 0 := by
  have hcm : memDeg capMatched (0 : ℚ) = 0 := by
    norm_num [memDeg, trimf, capMatched]
  have hcn : memDeg capNoMatch (0 : ℚ) = 1 := by
    norm_num [memDeg, trimf, capNoMatch]
  have mc : min (0 : ℚ) 1 = 0 := by norm_num
  have zlh : ∀ t : Trimf, t.wf → ∀ v : ℚ, min (memDeg t v) 0 = 0 :=
    fun t ht v => min_eq_right (memDeg_nonneg ht v)
  have z1 := zlh lhLow lhLow_wf
  have z2 := zlh lhMedium lhMedium_wf
  have z3 := zlh lhHigh lhHigh_wf
  have z4 := zlh dttLow dttLow_wf
  have z5 := zlh dttMedium dttMedium_wf
  have z6 := zlh dttHigh dttHigh_wf
  have z7 := zlh tdtLow tdtLow_wf
  have z8 := zlh tdtMedium tdtMedium_wf
  have z9 := zlh tdtHigh tdtHigh_wf
  have c1 : ∀ p, min 0 (memDeg suitVeryHigh p) = 0 :=
    fun p => min_eq_left (memDeg_nonneg suitVeryHigh_wf p)
  have c2 : ∀ p, min 0 (memDeg suitHigh p) = 0 :=
    fun p => min_eq_left (memDeg_nonneg suitHigh_wf p)
  have c3 : ∀ p, min 0 (memDeg suitMedium p) = 0 :=
    fun p => min_eq_left (memDeg_nonneg suitMedium_wf p)
  have c4 : ∀ p, min 0 (memDeg suitLow p) = 0 :=
    fun p => min_eq_left (memDeg_nonneg suitLow_wf p)
  have c5 : ∀ p, min 0 (memDeg suitVeryLow p) = 0 :=
    fun p => min_eq_left (memDeg_nonneg suitVeryLow_wf p)
  have cu : ∀ p, min 1 (memDeg suitUnacceptable p) = memDeg suitUnacceptable p :=
    fun p => min_eq_right (memDeg_le_one suitUnacceptable_wf p)
  have xu1 : ∀ p : ℚ, max (memDeg suitUnacceptable p) 0 = memDeg suitUnacceptable p :=
    fun p => max_eq_left (memDeg_nonneg suitUnacceptable_wf p)
  have xu2 : ∀ p : ℚ, max 0 (memDeg suitUnacceptable p) = memDeg suitUnacceptable p :=
    fun p => max_eq_right (memDeg_nonneg suitUnacceptable_wf p)
  simp only [fis_solve, fis_create, sumDen, sumNum, aggAt, List.foldr_cons,
    List.foldr_nil, List.map_cons, List.map_nil, List.sum_cons, List.sum_nil,
    fireStrength_mRule, fireStrength_catchAll, fuzzInputs, clamp,
    uMin_lh, uMax_lh, uMin_dtt, uMax_dtt, uMin_tdt, uMax_tdt, uMin_cap, uMax_cap,
    mRule_cons, hcm, hcn, mc, min_self, max_self,
    z1, z2, z3, z4, z5, z6, z7, z8, z9,
    c1, c2, c3, c4, c5, cu, xu1, xu2, suit_range]
  norm_num [memDeg, trimf, suitUnacceptable]

/-- C2: with capability 0 every rule whose antecedent includes capability
`Matched` has firing strength 0, only the catch-all rule 28 contributes,
and the solver returns the `Unacceptable` term's centroid value 0 — for
every load, distance-to-task and total-distance-travelled value. -/
theorem C2_capability_gating (load distance travelled : ℚ) :
    fis_solve fis_create load distance travelled 0 = some 0 :=
  solve_cap_zero load distance travelled

/-! ## Bounds on aggregation and the centroid sums -/

/-- The aggregated membership is non-negative. -/
theorem aggAt_nonneg (rb : List Rule) (i : Inputs) (p : ℚ) :
    0 ≤ aggAt rb i p := by
  unfold aggAt
  induction rb with
  | nil => exact le_refl 0
  | cons r tl ih => exact le_trans ih (le_max_right _ _)

/-- Every rule's clipped contribution is below the aggregate. -/
theorem clip_le_aggAt (rb : List Rule) (i : Inputs) (p : ℚ) {r : Rule}
    (hr : r ∈ rb) :
    min (fireStrength i r) (memDeg r.cons p) ≤ aggAt rb i p := by
  unfold aggAt
  induction rb with
  | nil => cases hr
  | cons hd tl ih =>
      rcases List.mem_cons.mp hr with h | h
      · subst h; exact le_max_left _ _
      · exact le_trans (ih h) (le_max_right _ _)

/-- The centroid denominator is non-negative. -/
theorem sumDen_nonneg (rb : List Rule) (i : Inputs) : 0 ≤ sumDen rb i := by
  unfold sumDen
  apply List.sum_nonneg
  intro x hx
  rcases List.mem_map.mp hx with ⟨p, _, rfl⟩
  exact aggAt_nonneg rb i p

/-- Any single sample point's aggregate is below the denominator. -/
theorem aggAt_le_sumDen (rb : List Rule) (i : Inputs) {p : ℚ}
    (hp : p ∈ suit_range) : aggAt rb i p ≤ sumDen rb i := by
  unfold sumDen
  apply List.single_le_sum
  · intro x hx
    rcases List.mem_map.mp hx with ⟨q, _, rfl⟩
    exact aggAt_nonneg rb i q
  · exact List.mem_map_of_mem _ hp

/-- A positive clipped contribution of any rule at any sample point makes
the centroid denominator positive. -/
theorem sumDen_pos (rb : List Rule) (i : Inputs) {r : Rule} {p : ℚ}
    (hr : r ∈ rb) (hp : p ∈ suit_range)
    (hpos : 0 < min (fireStrength i r) (memDeg r.cons p)) :
    0 < sumDen rb i :=
  lt_of_lt_of_le hpos (le_trans (clip_le_aggAt rb i p hr) (aggAt_le_sumDen rb i hp))

/-- A nonzero denominator makes the solver produce a crisp output. -/
theorem isSome_of_sumDen_ne {load distance travelled cap : ℚ}
    (h : sumDen fis_create (fuzzInputs load distance travelled cap) ≠ 0) :
    (fis_solve fis_create load distance travelled cap).isSome := by
  simp [fis_solve, h]

/-! ## Clamping -/

theorem le_clamp (lo hi x : ℚ) : lo ≤ clamp lo hi x := le_max_left lo (min x hi)

theorem clamp_le {lo hi : ℚ} (h : lo ≤ hi) (x : ℚ) : clamp lo hi x ≤ hi :=
  max_le h (min_le_right x hi)

theorem clamp_eq_self {lo hi x : ℚ} (h1 : lo ≤ x) (h2 : x ≤ hi) :
    clamp lo hi x = x := by
  unfold clamp; rw [min_eq_left h2, max_eq_right h1]

theorem clamp_idem {lo hi : ℚ} (h : lo ≤ hi) (x : ℚ) :
    clamp lo hi (clamp lo hi x) = clamp lo hi x :=
  clamp_eq_self (le_clamp lo hi x) (clamp_le h x)

/-! ## Positivity of the shoulder terms -/

/-- A Low-shaped term `trimf 0 0 c` is positive on `[0, c)`. -/
theorem trimf_low_pos {c x : ℚ} (hc : 0 < c) (h0 : 0 ≤ x) (h1 : x < c) :
    0 < trimf 0 0 c x := by
  unfold trimf
  rcases eq_or_lt_of_le h0 with h | h
  · rw [if_pos h.symm]; norm_num
  · rw [if_neg (by linarith), if_neg (by intro hh; linarith [hh.2]),
      if_pos ⟨h, h1⟩]
    exact div_pos (by linarith) (by linarith)

/-- A High-shaped term `trimf a c c` is positive on `(a, c]`. -/
theorem trimf_high_pos {a c x : ℚ} (hac : a < c) (h0 : a < x) (h1 : x ≤ c) :
    0 < trimf a c c x := by
  unfold trimf
  rcases eq_or_lt_of_le h1 with h | h
  · rw [if_pos h]; norm_num
  · rw [if_neg (by linarith), if_pos ⟨h0, h⟩]
    exact div_pos (by linarith) (by linarith)

theorem lhLow_pos {x : ℚ} (h0 : 0 ≤ x) (h1 : x < 6) : 0 < memDeg lhLow x :=
  trimf_low_pos (by norm_num [lhLow]) h0 h1

theorem lhHigh_pos {x : ℚ} (h0 : 4 < x) (h1 : x ≤ 10) : 0 < memDeg lhHigh x :=
  trimf_high_pos (by norm_num [lhHigh]) h0 h1

theorem dttLow_pos {x : ℚ} (h0 : 0 ≤ x) (h1 : x < 15) : 0 < memDeg dttLow x :=
  trimf_low_pos (by norm_num [dttLow]) h0 h1

theorem dttHigh_pos {x : ℚ} (h0 : 10 < x) (h1 : x ≤ 25) : 0 < memDeg dttHigh x :=
  trimf_high_pos (by norm_num [dttHigh]) h0 h1

theorem tdtLow_pos {x : ℚ} (h0 : 0 ≤ x) (h1 : x < 30) : 0 < memDeg tdtLow x :=
  trimf_low_pos (by norm_num [tdtLow]) h0 h1

theorem tdtHigh_pos {x : ℚ} (h0 : 15 < x) (h1 : x ≤ 50) : 0 < memDeg tdtHigh x :=
  trimf_high_pos (by norm_num [tdtHigh]) h0 h1

/-- C3: if the aggregated output membership is zero at every sample point
of the output universe, the solver reports an explicit per-call failure
(`none`) instead of returning a number (in particular not 0). -/
theorem C3_degenerate_failure (load distance travelled cap : ℚ)
    (h : ∀ p ∈ suit_range,
      aggAt fis_create (fuzzInputs load distance travelled cap) p = 0) :
    fis_solve fis_create load distance travelled cap = none := by
  have hden : sumDen fis_create (fuzzInputs load distance travelled cap) = 0 := by
    apply List.sum_eq_zero
    intro x hx
    rcases List.mem_map.mp hx with ⟨p, hp, rfl⟩
    exact h p hp
  simp [fis_solve, hden]

set_option maxRecDepth 8000 in
set_option maxHeartbeats 1000000 in
/-- With capability 1/2 both capability terms have degree 0, so no rule
fires and the aggregated membership is zero at every output point,
whatever the three numeric inputs are. -/
theorem aggAt_cap_half (load distance travelled p : ℚ) :
    aggAt fis_create (fuzzInputs load distance travelled (1/2)) p = 0 := by
  have hcm : memDeg capMatched (max 0 (min (1/2 : ℚ) 1)) = 0 := by
    norm_num [memDeg, trimf, capMatched]
  have hcn : memDeg capNoMatch (max 0 (min (1/2 : ℚ) 1)) = 0 := by
    norm_num [memDeg, trimf, capNoMatch]
  have mc : min (0 : ℚ) 1 = 0 := by norm_num
  have zlh : ∀ t : Trimf, t.wf → ∀ v : ℚ, min (memDeg t v) 0 = 0 :=
    fun t ht v => min_eq_right (memDeg_nonneg ht v)
  have z1 := zlh lhLow lhLow_wf
  have z2 := zlh lhMedium lhMedium_wf
  have z3 := zlh lhHigh lhHigh_wf
  have z4 := zlh dttLow dttLow_wf
  have z5 := zlh dttMedium dttMedium_wf
  have z6 := zlh dttHigh dttHigh_wf
  have z7 := zlh tdtLow tdtLow_wf
  have z8 := zlh tdtMedium tdtMedium_wf
  have z9 := zlh tdtHigh tdtHigh_wf
  have c1 : ∀ q, min 0 (memDeg suitVeryHigh q) = 0 :=
    fun q => min_eq_left (memDeg_nonneg suitVeryHigh_wf q)
  have c2 : ∀ q, min 0 (memDeg suitHigh q) = 0 :=
    fun q => min_eq_left (memDeg_nonneg suitHigh_wf q)
  have c3 : ∀ q, min 0 (memDeg suitMedium q) = 0 :=
    fun q => min_eq_left (memDeg_nonneg suitMedium_wf q)
  have c4 : ∀ q, min 0 (memDeg suitLow q) = 0 :=
    fun q => min_eq_left (memDeg_nonneg suitLow_wf q)
  have c5 : ∀ q, min 0 (memDeg suitVeryLow q) = 0 :=
    fun q => min_eq_left (memDeg_nonneg suitVeryLow_wf q)
  have c6 : ∀ q, min 0 (memDeg suitUnacceptable q) = 0 :=
    fun q => min_eq_left (memDeg_nonneg suitUnacceptable_wf q)
  simp only [aggAt, fis_create, List.foldr_cons, List.foldr_nil,
    fireStrength_mRule, fireStrength_catchAll, fuzzInputs, clamp,
    uMin_lh, uMax_lh, uMin_dtt, uMax_dtt, uMin_tdt, uMax_tdt, uMin_cap, uMax_cap,
    mRule_cons, hcm, hcn, mc, min_self, max_self,
    z1, z2, z3, z4, z5, z6, z7, z8, z9, c1, c2, c3, c4, c5, c6]

/-- With capability 1/2 the solve fails with the degenerate-output error,
whatever the three numeric inputs are. -/
theorem solve_cap_half (load distance travelled : ℚ) :
    fis_solve fis_create load distance travelled (1/2) = none := by
  have hden : sumDen fis_create (fuzzInputs load distance travelled (1/2)) = 0 := by
    apply List.sum_eq_zero
    intro v hv
    rcases List.mem_map.mp hv with ⟨p, _, rfl⟩
    exact aggAt_cap_half load distance travelled p
  simp only [fis_solve]
  rw [if_pos hden]

/-- C3 witness: the degenerate instance at capability 1/2. -/
theorem C3_degenerate_failure_witness :
    fis_solve fis_create 5 5 5 (1/2) = none := by
  apply C3_degenerate_failure
  intro p hp
  exact aggAt_cap_half 5 5 5 p

/-- C10: whenever the solver produces a crisp output, that output lies in
the output universe's range `[0, 10]`, being a weighted average of the
output sample points with non-negative weights. -/
theorem C10_output_in_range (load distance travelled cap r : ℚ)
    (h : fis_solve fis_create load distance travelled cap = some r) :
    0 ≤ r ∧ r ≤ 10 := by
  set i := fuzzInputs load distance travelled cap with hi
  by_cases hden : sumDen fis_create i = 0
  · simp [fis_solve, ← hi, hden] at h
  · have hr : sumNum fis_create i / sumDen fis_create i = r := by
      simpa [fis_solve, ← hi, hden] using h
    have hdpos : 0 < sumDen fis_create i :=
      lt_of_le_of_ne (sumDen_nonneg fis_create i) (Ne.symm hden)
    have hp10 : ∀ p ∈ suit_range, 0 ≤ p ∧ p ≤ 10 := by
      intro p hp
      simp only [suit_range, List.mem_cons, List.not_mem_nil, or_false] at hp
      rcases hp with h|h|h|h|h|h|h|h|h|h|h|h|h <;> subst h <;> norm_num
    have hnum0 : 0 ≤ sumNum fis_create i := by
      apply List.sum_nonneg
      intro x hx
      rcases List.mem_map.mp hx with ⟨p, hp, rfl⟩
      exact mul_nonneg (hp10 p hp).1 (aggAt_nonneg fis_create i p)
    have hnum10 : sumNum fis_create i ≤ 10 * sumDen fis_create i := by
      unfold sumNum sumDen
      rw [← List.sum_map_mul_left]
      apply List.sum_le_sum
      intro p hp
      exact mul_le_mul_of_nonneg_right (hp10 p hp).2 (aggAt_nonneg fis_create i p)
    subst hr
    constructor
    · exact div_nonneg hnum0 hdpos.le
    · rw [div_le_iff hdpos]; linarith

/-- C10 witness: the instance at load 3, distance 7, travelled 20 and
capability 0, where the solver returns 0. -/
theorem C10_output_in_range_witness : 0 ≤ (0:ℚ) ∧ (0:ℚ) ≤ 10 :=
  C10_output_in_range 3 7 20 0 0 (solve_cap_zero 3 7 20)

/-- Positivity of the denominator through one matched-case rule whose
antecedent degrees and consequent degree are all positive. -/
theorem sumDen_pos_mRule (i : Inputs) {L D T S : Trimf} {p : ℚ}
    (hmem : mRule L D T S ∈ fis_create) (hp : p ∈ suit_range)
    (hL : 0 < memDeg L i.load) (hD : 0 < memDeg D i.distance)
    (hT : 0 < memDeg T i.travelled) (hC : 0 < memDeg capMatched i.cap)
    (hS : 0 < memDeg S p) : 0 < sumDen fis_create i := by
  apply sumDen_pos fis_create i hmem hp
  rw [fireStrength_mRule, mRule_cons]
  simp only [lt_min_iff]
  exact ⟨⟨hL, hD, hT, hC, by norm_num⟩, hS⟩

/-- C8: an out-of-range crisp input is clamped to the universe boundary —
the evaluation equals the evaluation at the clamped inputs — the
input-domain diagnostic is surfaced, and (whenever the capability clamps
to one of its two meaningful values 0 and 1) the evaluation still
produces a crisp output rather than failing. -/
theorem C8_out_of_range_clamps (load distance travelled cap : ℚ)
    (hout : load < 0 ∨ 10 < load ∨ distance < 0 ∨ 25 < distance ∨
            travelled < 0 ∨ 50 < travelled ∨ cap < 0 ∨ 1 < cap) :
    fis_solve fis_create load distance travelled cap =
      fis_solve fis_create (clamp 0 10 load) (clamp 0 25 distance)
        (clamp 0 50 travelled) (clamp 0 1 cap) ∧
    fis_diag load distance travelled cap = true ∧
    (clamp 0 1 cap = 0 ∨ clamp 0 1 cap = 1 →
      (fis_solve fis_create load distance travelled cap).isSome) := by
  refine ⟨?_, ?_, ?_⟩
  · have hfz : fuzzInputs (clamp 0 10 load) (clamp 0 25 distance)
        (clamp 0 50 travelled) (clamp 0 1 cap) =
        fuzzInputs load distance travelled cap := by
      simp only [fuzzInputs, uMin_lh, uMax_lh, uMin_dtt, uMax_dtt,
        uMin_tdt, uMax_tdt, uMin_cap, uMax_cap]
      rw [clamp_idem (by norm_num) load, clamp_idem (by norm_num) distance,
        clamp_idem (by norm_num) travelled, clamp_idem (by norm_num) cap]
    unfold fis_solve
    rw [hfz]
  · simp only [fis_diag, uMin_lh, uMax_lh, uMin_dtt, uMax_dtt,
      uMin_tdt, uMax_tdt, uMin_cap, uMax_cap, decide_eq_true_eq]
    exact hout
  · intro hcap
    apply isSome_of_sumDen_ne
    set i := fuzzInputs load distance travelled cap with hidef
    have hic : i.cap = clamp 0 1 cap := by
      simp only [hidef, fuzzInputs, uMin_cap, uMax_cap]
    have hil : i.load = clamp 0 10 load := by
      simp only [hidef, fuzzInputs, uMin_lh, uMax_lh]
    have hid : i.distance = clamp 0 25 distance := by
      simp only [hidef, fuzzInputs, uMin_dtt, uMax_dtt]
    have hit : i.travelled = clamp 0 50 travelled := by
      simp only [hidef, fuzzInputs, uMin_tdt, uMax_tdt]
    rcases hcap with h0 | h1
    · refine ne_of_gt (sumDen_pos fis_create i
        (r := ⟨[(FVar.CAP, capNoMatch)], suitUnacceptable⟩) (p := 0)
        (by simp [fis_create]) (by simp [suit_range]) ?_)
      rw [fireStrength_catchAll, hic, h0]
      norm_num [memDeg, trimf, capNoMatch, suitUnacceptable]
    · have hcm1 : 0 < memDeg capMatched i.cap := by
        rw [hic, h1]; norm_num [memDeg, trimf, capMatched]
      have hl0 : 0 ≤ i.load := by rw [hil]; exact le_clamp 0 10 load
      have hl10 : i.load ≤ 10 := by rw [hil]; exact clamp_le (by norm_num) load
      have hd0 : 0 ≤ i.distance := by rw [hid]; exact le_clamp 0 25 distance
      have hd25 : i.distance ≤ 25 := by rw [hid]; exact clamp_le (by norm_num) distance
      have ht0 : 0 ≤ i.travelled := by rw [hit]; exact le_clamp 0 50 travelled
      have ht50 : i.travelled ≤ 50 := by rw [hit]; exact clamp_le (by norm_num) travelled
      rcases lt_or_le i.load 6 with hx | hx <;>
        rcases lt_or_le i.distance 15 with hd | hd <;>
          rcases lt_or_le i.travelled 30 with ht | ht
      · exact ne_of_gt (sumDen_pos_mRule i (L := lhLow) (D := dttLow)
          (T := tdtLow) (S := suitVeryHigh) (p := 10)
          (by simp [fis_create]) (by simp [suit_range])
          (lhLow_pos hl0 hx)
          (dttLow_pos hd0 hd)
          (tdtLow_pos ht0 ht) hcm1
          (by norm_num [memDeg, trimf, suitVeryHigh]))
      · exact ne_of_gt (sumDen_pos_mRule i (L := lhLow) (D := dttLow)
          (T := tdtHigh) (S := suitMedium) (p := 5)
          (by simp [fis_create]) (by simp [suit_range])
          (lhLow_pos hl0 hx)
          (dttLow_pos hd0 hd)
          (tdtHigh_pos (by linarith) ht50) hcm1
          (by norm_num [memDeg, trimf, suitMedium]))
      · exact ne_of_gt (sumDen_pos_mRule i (L := lhLow) (D := dttHigh)
          (T := tdtLow) (S := suitMedium) (p := 5)
          (by simp [fis_create]) (by simp [suit_range])
          (lhLow_pos hl0 hx)
          (dttHigh_pos (by linarith) hd25)
          (tdtLow_pos ht0 ht) hcm1
          (by norm_num [memDeg, trimf, suitMedium]))
      · exact ne_of_gt (sumDen_pos_mRule i (L := lhLow) (D := dttHigh)
          (T := tdtHigh) (S := suitLow) (p := 5/2)
          (by simp [fis_create]) (by simp [suit_range])
          (lhLow_pos hl0 hx)
          (dttHigh_pos (by linarith) hd25)
          (tdtHigh_pos (by linarith) ht50) hcm1
          (by norm_num [memDeg, trimf, suitLow]))
      · exact ne_of_gt (sumDen_pos_mRule i (L := lhHigh) (D := dttLow)
          (T := tdtLow) (S := suitMedium) (p := 5)
          (by simp [fis_create]) (by simp [suit_range])
          (lhHigh_pos (by linarith) hl10)
          (dttLow_pos hd0 hd)
          (tdtLow_pos ht0 ht) hcm1
          (by norm_num [memDeg, trimf, suitMedium]))
      · exact ne_of_gt (sumDen_pos_mRule i (L := lhHigh) (D := dttLow)
          (T := tdtHigh) (S := suitLow) (p := 5/2)
          (by simp [fis_create]) (by simp [suit_range])
          (lhHigh_pos (by linarith) hl10)
          (dttLow_pos hd0 hd)
          (tdtHigh_pos (by linarith) ht50) hcm1
          (by norm_num [memDeg, trimf, suitLow]))
      · exact ne_of_gt (sumDen_pos_mRule i (L := lhHigh) (D := dttHigh)
          (T := tdtLow) (S := suitLow) (p := 5/2)
          (by simp [fis_create]) (by simp [suit_range])
          (lhHigh_pos (by linarith) hl10)
          (dttHigh_pos (by linarith) hd25)
          (tdtLow_pos ht0 ht) hcm1
          (by norm_num [memDeg, trimf, suitLow]))
      · exact ne_of_gt (sumDen_pos_mRule i (L := lhHigh) (D := dttHigh)
          (T := tdtHigh) (S := suitVeryLow) (p := 0)
          (by simp [fis_create]) (by simp [suit_range])
          (lhHigh_pos (by linarith) hl10)
          (dttHigh_pos (by linarith) hd25)
          (tdtHigh_pos (by linarith) ht50) hcm1
          (by norm_num [memDeg, trimf, suitVeryLow]))

/-! ## The load slice: distance and travelled at their Low centers,
capability 1.  On this slice only Rules 01–03 fire, and the solver output
reduces to an explicit function of the three load-term degrees. -/

/-- Centroid numerator on the load slice. -/
def sliceNum (x : ℚ) : ℚ :=
  10 * min (memDeg lhHigh x) (4/5) + 5 * memDeg lhHigh x
    + 15 * min (memDeg lhMedium x) (4/5) + (15/2) * memDeg lhMedium x
    + (115/12) * min (memDeg lhLow x) (4/5) + 10 * memDeg lhLow x

/-- Centroid denominator on the load slice. -/
def sliceDen (x : ℚ) : ℚ :=
  2 * min (memDeg lhHigh x) (4/5) + memDeg lhHigh x
    + 2 * min (memDeg lhMedium x) (4/5) + memDeg lhMedium x
    + min (memDeg lhLow x) (4/5) + memDeg lhLow x

/-- Crisp output on the load slice. -/
def sliceVal (x : ℚ) : ℚ := sliceNum x / sliceDen x

/-! ## Closed forms of the load terms on sub-intervals -/

theorem lhLow_eval_in {x : ℚ} (h0 : 0 ≤ x) (h6 : x ≤ 6) :
    memDeg lhLow x = (6 - x) / 6 := by
  have h := trimf_right_lin (a := 0) (b := 0) (c := 6) (by norm_num) h0 h6
  rw [show memDeg lhLow x = trimf 0 0 6 x from rfl, h]
  norm_num

theorem lhLow_eval_out {x : ℚ} (h6 : 6 ≤ x) : memDeg lhLow x = 0 := by
  rcases eq_or_lt_of_le h6 with h | h
  · rw [show memDeg lhLow x = trimf 0 0 6 x from rfl,
      trimf_right_lin (by norm_num) (by linarith) (by linarith), ← h]
    norm_num
  · exact trimf_outside (by norm_num [lhLow]) (by norm_num [lhLow]) (Or.inr h)

theorem lhMedium_eval_out_lo {x : ℚ} (h : x ≤ 5/6) : memDeg lhMedium x = 0 := by
  rcases eq_or_lt_of_le h with h | h
  · rw [show memDeg lhMedium x = trimf (5/6) 5 (55/6) x from rfl,
      trimf_left_lin (by norm_num) (by linarith) (by linarith), h]
    norm_num
  · exact trimf_outside (by norm_num [lhMedium]) (by norm_num [lhMedium]) (Or.inl h)

theorem lhMedium_eval_rise {x : ℚ} (h1 : 5/6 ≤ x) (h2 : x ≤ 5) :
    memDeg lhMedium x = (x - 5/6) / (25/6) := by
  have h := trimf_left_lin (a := 5/6) (b := 5) (c := 55/6) (by norm_num) h1 h2
  rw [show memDeg lhMedium x = trimf (5/6) 5 (55/6) x from rfl, h]
  norm_num

theorem lhMedium_eval_fall {x : ℚ} (h1 : 5 ≤ x) (h2 : x ≤ 55/6) :
    memDeg lhMedium x = (55/6 - x) / (25/6) := by
  have h := trimf_right_lin (a := 5/6) (b := 5) (c := 55/6) (by norm_num) h1 h2
  rw [show memDeg lhMedium x = trimf (5/6) 5 (55/6) x from rfl, h]
  norm_num

theorem lhHigh_eval_out {x : ℚ} (h : x ≤ 4) : memDeg lhHigh x = 0 := by
  rcases eq_or_lt_of_le h with h | h
  · rw [show memDeg lhHigh x = trimf 4 10 10 x from rfl,
      trimf_left_lin (by norm_num) (by linarith) (by linarith), h]
    norm_num
  · exact trimf_outside (by norm_num [lhHigh]) (by norm_num [lhHigh]) (Or.inl h)

theorem lhHigh_eval_rise {x : ℚ} (h1 : 4 ≤ x) (h2 : x ≤ 10) :
    memDeg lhHigh x = (x - 4) / 6 := by
  have h := trimf_left_lin (a := 4) (b := 10) (c := 10) (by norm_num) h1 h2
  rw [show memDeg lhHigh x = trimf 4 10 10 x from rfl, h]
  norm_num

/-- C8 witness: load 20 lies above its universe, the evaluation equals
the clamped evaluation, the diagnostic fires and the call still returns
a crisp output. -/
theorem C8_out_of_range_clamps_witness :
    fis_solve fis_create 20 5 5 1 =
      fis_solve fis_create (clamp 0 10 20) (clamp 0 25 5) (clamp 0 50 5)
        (clamp 0 1 1) ∧
    fis_diag 20 5 5 1 = true ∧
    (fis_solve fis_create 20 5 5 1).isSome := by
  have h := C8_out_of_range_clamps 20 5 5 1 (by norm_num)
  exact ⟨h.1, h.2.1, h.2.2 (Or.inr (by norm_num [clamp]))⟩

/-- C8 counterexample: load 20 lies outside its universe, yet with
capability 1/2 the evaluation reports the degenerate-output failure
instead of producing a crisp output, so the claim's unconditional
"proceeds to produce a crisp output" is false as stated. -/
theorem C8_out_of_range_counterexample :
    (10 < (20:ℚ)) ∧ fis_solve fis_create 20 5 5 (1/2) = none :=
  ⟨by norm_num, solve_cap_half 20 5 5⟩

theorem lhMedium_eval_out_hi {x : ℚ} (h : 55/6 ≤ x) : memDeg lhMedium x = 0 := by
  rcases eq_or_lt_of_le h with h | h
  · rw [show memDeg lhMedium x = trimf (5/6) 5 (55/6) x from rfl,
      trimf_right_lin (by norm_num) (by linarith) (by linarith), ← h]
    norm_num
  · exact trimf_outside (by norm_num [lhMedium]) (by norm_num [lhMedium]) (Or.inr h)

set_option maxRecDepth 8000 in
set_option maxHeartbeats 2000000 in
theorem solve_slice (x : ℚ) (hx0 : 0 ≤ x) (hx10 : x ≤ 10) :
    fis_solve fis_create x 0 0 1 = some (sliceNum x / sliceDen x) := by
  set s1 := memDeg lhLow x with hs1
  set s2 := memDeg lhMedium x with hs2
  set s3 := memDeg lhHigh x with hs3
  have hb1 : 0 ≤ s1 := memDeg_nonneg lhLow_wf x
  have hb2 : 0 ≤ s2 := memDeg_nonneg lhMedium_wf x
  have hb3 : 0 ≤ s3 := memDeg_nonneg lhHigh_wf x
  have hu1 : s1 ≤ 1 := memDeg_le_one lhLow_wf x
  have hu2 : s2 ≤ 1 := memDeg_le_one lhMedium_wf x
  have hu3 : s3 ≤ 1 := memDeg_le_one lhHigh_wf x
  have hclx : max (0:ℚ) (min x 10) = x := by
    rw [min_eq_left hx10, max_eq_right hx0]
  have hpl : (fuzzInputs x 0 0 1).load = x := by
    simp only [fuzzInputs, uMin_lh, uMax_lh, clamp]; exact hclx
  have hpd : (fuzzInputs x 0 0 1).distance = 0 := by
    simp only [fuzzInputs, uMin_dtt, uMax_dtt, clamp]; norm_num
  have hpt : (fuzzInputs x 0 0 1).travelled = 0 := by
    simp only [fuzzInputs, uMin_tdt, uMax_tdt, clamp]; norm_num
  have hpc : (fuzzInputs x 0 0 1).cap = 1 := by
    simp only [fuzzInputs, uMin_cap, uMax_cap, clamp]; norm_num
  have hdl : memDeg dttLow 0 = 1 := by norm_num [memDeg, trimf, dttLow]
  have hdm : memDeg dttMedium 0 = 0 := by norm_num [memDeg, trimf, dttMedium]
  have hdh : memDeg dttHigh 0 = 0 := by norm_num [memDeg, trimf, dttHigh]
  have htl : memDeg tdtLow 0 = 1 := by norm_num [memDeg, trimf, tdtLow]
  have htm : memDeg tdtMedium 0 = 0 := by norm_num [memDeg, trimf, tdtMedium]
  have hth : memDeg tdtHigh 0 = 0 := by norm_num [memDeg, trimf, tdtHigh]
  have hcm : memDeg capMatched 1 = 1 := by norm_num [memDeg, trimf, capMatched]
  have hcn : memDeg capNoMatch 1 = 0 := by norm_num [memDeg, trimf, capNoMatch]
  have mc : min (0:ℚ) 1 = 0 := by norm_num
  have mcf : min (0:ℚ) (4/5) = 0 := by norm_num
  have m10 : min (1:ℚ) 0 = 0 := by norm_num
  have e1 : min s1 1 = s1 := min_eq_left hu1
  have e2 : min s2 1 = s2 := min_eq_left hu2
  have e3 : min s3 1 = s3 := min_eq_left hu3
  have za1 : min s1 0 = 0 := min_eq_right hb1
  have za2 : min s2 0 = 0 := min_eq_right hb2
  have za3 : min s3 0 = 0 := min_eq_right hb3
  have hbm1 : (0:ℚ) ≤ min s1 (4/5) := le_min hb1 (by norm_num)
  have hbm2 : (0:ℚ) ≤ min s2 (4/5) := le_min hb2 (by norm_num)
  have hbm3 : (0:ℚ) ≤ min s3 (4/5) := le_min hb3 (by norm_num)
  have yb1 : max (min s1 (4/5)) 0 = min s1 (4/5) := max_eq_left hbm1
  have yb2 : max (min s2 (4/5)) 0 = min s2 (4/5) := max_eq_left hbm2
  have yb3 : max (min s3 (4/5)) 0 = min s3 (4/5) := max_eq_left hbm3
  have yc1 : max 0 (min s1 (4/5)) = min s1 (4/5) := max_eq_right hbm1
  have yc2 : max 0 (min s2 (4/5)) = min s2 (4/5) := max_eq_right hbm2
  have yc3 : max 0 (min s3 (4/5)) = min s3 (4/5) := max_eq_right hbm3
  have yd1 : max s1 0 = s1 := max_eq_left hb1
  have yd2 : max s2 0 = s2 := max_eq_left hb2
  have yd3 : max s3 0 = s3 := max_eq_left hb3
  have ye1 : max 0 s1 = s1 := max_eq_right hb1
  have ye2 : max 0 s2 = s2 := max_eq_right hb2
  have ye3 : max 0 s3 = s3 := max_eq_right hb3
  have st1 : fireStrength (fuzzInputs x 0 0 1) (mRule lhLow dttLow tdtLow suitVeryHigh) = s1 := by
    simp only [fireStrength_mRule, hpl, hpd, hpt, hpc, hdl, htl, hcm, min_self, e1]
  have st2 : fireStrength (fuzzInputs x 0 0 1) (mRule lhMedium dttLow tdtLow suitHigh) = s2 := by
    simp only [fireStrength_mRule, hpl, hpd, hpt, hpc, hdl, htl, hcm, min_self, e2]
  have st3 : fireStrength (fuzzInputs x 0 0 1) (mRule lhHigh dttLow tdtLow suitMedium) = s3 := by
    simp only [fireStrength_mRule, hpl, hpd, hpt, hpc, hdl, htl, hcm, min_self, e3]
  have st28 : fireStrength (fuzzInputs x 0 0 1)
      (⟨[(FVar.CAP, capNoMatch)], suitUnacceptable⟩ : Rule) = 0 := by
    rw [fireStrength_catchAll, hpc, hcn, mc]
  have c1 : ∀ p : ℚ, min 0 (memDeg suitVeryHigh p) = 0 :=
    fun p => min_eq_left (memDeg_nonneg suitVeryHigh_wf p)
  have c2 : ∀ p : ℚ, min 0 (memDeg suitHigh p) = 0 :=
    fun p => min_eq_left (memDeg_nonneg suitHigh_wf p)
  have c3 : ∀ p : ℚ, min 0 (memDeg suitMedium p) = 0 :=
    fun p => min_eq_left (memDeg_nonneg suitMedium_wf p)
  have c4 : ∀ p : ℚ, min 0 (memDeg suitLow p) = 0 :=
    fun p => min_eq_left (memDeg_nonneg suitLow_wf p)
  have c5 : ∀ p : ℚ, min 0 (memDeg suitVeryLow p) = 0 :=
    fun p => min_eq_left (memDeg_nonneg suitVeryLow_wf p)
  have c6 : ∀ p : ℚ, min 0 (memDeg suitUnacceptable p) = 0 :=
    fun p => min_eq_left (memDeg_nonneg suitUnacceptable_wf p)
  have stz : ∀ L S D T : Trimf, 0 ≤ memDeg L x →
      min (memDeg D (0:ℚ)) (min (memDeg T (0:ℚ)) 1) = 0 →
      fireStrength (fuzzInputs x 0 0 1) (mRule L D T S) = 0 := by
    intro L S D T hLnn hDT
    rw [fireStrength_mRule, hpl, hpd, hpt, hpc, hcm, min_self, hDT]
    exact min_eq_right hLnn
  have q_ML : min (memDeg dttMedium (0:ℚ)) (min (memDeg tdtLow (0:ℚ)) 1) = 0 := by
    rw [hdm, htl]; norm_num
  have q_HL : min (memDeg dttHigh (0:ℚ)) (min (memDeg tdtLow (0:ℚ)) 1) = 0 := by
    rw [hdh, htl]; norm_num
  have q_LM : min (memDeg dttLow (0:ℚ)) (min (memDeg tdtMedium (0:ℚ)) 1) = 0 := by
    rw [hdl, htm]; norm_num
  have q_MM : min (memDeg dttMedium (0:ℚ)) (min (memDeg tdtMedium (0:ℚ)) 1) = 0 := by
    rw [hdm, htm]; norm_num
  have q_HM : min (memDeg dttHigh (0:ℚ)) (min (memDeg tdtMedium (0:ℚ)) 1) = 0 := by
    rw [hdh, htm]; norm_num
  have q_LH : min (memDeg dttLow (0:ℚ)) (min (memDeg tdtHigh (0:ℚ)) 1) = 0 := by
    rw [hdl, hth]; norm_num
  have q_MH : min (memDeg dttMedium (0:ℚ)) (min (memDeg tdtHigh (0:ℚ)) 1) = 0 := by
    rw [hdm, hth]; norm_num
  have q_HH : min (memDeg dttHigh (0:ℚ)) (min (memDeg tdtHigh (0:ℚ)) 1) = 0 := by
    rw [hdh, hth]; norm_num
  obtain ⟨wa1, wa2, wa3, wa4, wa5, wa6, wa7, wa8, wa9, wa10, wa11, wa12, wa13⟩ :
      (memDeg suitVeryHigh 0 = 0) ∧ (memDeg suitVeryHigh (5/12) = 0) ∧
      (memDeg suitVeryHigh (25/12) = 0) ∧ (memDeg suitVeryHigh (5/2) = 0) ∧
      (memDeg suitVeryHigh (35/12) = 0) ∧ (memDeg suitVeryHigh (55/12) = 0) ∧
      (memDeg suitVeryHigh 5 = 0) ∧ (memDeg suitVeryHigh (65/12) = 0) ∧
      (memDeg suitVeryHigh (85/12) = 0) ∧ (memDeg suitVeryHigh (15/2) = 0) ∧
      (memDeg suitVeryHigh (95/12) = 0) ∧ (memDeg suitVeryHigh (115/12) = 4/5) ∧
      (memDeg suitVeryHigh 10 = 1) := by
    refine ⟨?_, ?_, ?_, ?_, ?_, ?_, ?_, ?_, ?_, ?_, ?_, ?_, ?_⟩ <;>
      norm_num [memDeg, trimf, suitVeryHigh]
  obtain ⟨wb1, wb2, wb3, wb4, wb5, wb6, wb7, wb8, wb9, wb10, wb11, wb12, wb13⟩ :
      (memDeg suitHigh 0 = 0) ∧ (memDeg suitHigh (5/12) = 0) ∧
      (memDeg suitHigh (25/12) = 0) ∧ (memDeg suitHigh (5/2) = 0) ∧
      (memDeg suitHigh (35/12) = 0) ∧ (memDeg suitHigh (55/12) = 0) ∧
      (memDeg suitHigh 5 = 0) ∧ (memDeg suitHigh (65/12) = 0) ∧
      (memDeg suitHigh (85/12) = 4/5) ∧ (memDeg suitHigh (15/2) = 1) ∧
      (memDeg suitHigh (95/12) = 4/5) ∧ (memDeg suitHigh (115/12) = 0) ∧
      (memDeg suitHigh 10 = 0) := by
    refine ⟨?_, ?_, ?_, ?_, ?_, ?_, ?_, ?_, ?_, ?_, ?_, ?_, ?_⟩ <;>
      norm_num [memDeg, trimf, suitHigh]
  obtain ⟨wc1, wc2, wc3, wc4, wc5, wc6, wc7, wc8, wc9, wc10, wc11, wc12, wc13⟩ :
      (memDeg suitMedium 0 = 0) ∧ (memDeg suitMedium (5/12) = 0) ∧
      (memDeg suitMedium (25/12) = 0) ∧ (memDeg suitMedium (5/2) = 0) ∧
      (memDeg suitMedium (35/12) = 0) ∧ (memDeg suitMedium (55/12) = 4/5) ∧
      (memDeg suitMedium 5 = 1) ∧ (memDeg suitMedium (65/12) = 4/5) ∧
      (memDeg suitMedium (85/12) = 0) ∧ (memDeg suitMedium (15/2) = 0) ∧
      (memDeg suitMedium (95/12) = 0) ∧ (memDeg suitMedium (115/12) = 0) ∧
      (memDeg suitMedium 10 = 0) := by
    refine ⟨?_, ?_, ?_, ?_, ?_, ?_, ?_, ?_, ?_, ?_, ?_, ?_, ?_⟩ <;>
      norm_num [memDeg, trimf, suitMedium]
  have hD : sumDen fis_create (fuzzInputs x 0 0 1) = sliceDen x := by
    simp only [sumDen, aggAt, fis_create, List.foldr_cons, List.foldr_nil,
      List.map_cons, List.map_nil, List.sum_cons, List.sum_nil, suit_range,
      st1, st2, st3, st28, mRule_cons,
      stz lhLow suitHigh dttMedium tdtLow hb1 q_ML,
      stz lhMedium suitMedium dttMedium tdtLow hb2 q_ML,
      stz lhHigh suitMedium dttMedium tdtLow hb3 q_ML,
      stz lhLow suitMedium dttHigh tdtLow hb1 q_HL,
      stz lhMedium suitMedium dttHigh tdtLow hb2 q_HL,
      stz lhHigh suitLow dttHigh tdtLow hb3 q_HL,
      stz lhLow suitHigh dttLow tdtMedium hb1 q_LM,
      stz lhMedium suitMedium dttLow tdtMedium hb2 q_LM,
      stz lhHigh suitMedium dttLow tdtMedium hb3 q_LM,
      stz lhLow suitMedium dttMedium tdtMedium hb1 q_MM,
      stz lhMedium suitLow dttMedium tdtMedium hb2 q_MM,
      stz lhHigh suitLow dttMedium tdtMedium hb3 q_MM,
      stz lhLow suitMedium dttHigh tdtMedium hb1 q_HM,
      stz lhMedium suitLow dttHigh tdtMedium hb2 q_HM,
      stz lhHigh suitVeryLow dttHigh tdtMedium hb3 q_HM,
      stz lhLow suitMedium dttLow tdtHigh hb1 q_LH,
      stz lhMedium suitMedium dttLow tdtHigh hb2 q_LH,
      stz lhHigh suitLow dttLow tdtHigh hb3 q_LH,
      stz lhLow suitMedium dttMedium tdtHigh hb1 q_MH,
      stz lhMedium suitLow dttMedium tdtHigh hb2 q_MH,
      stz lhHigh suitVeryLow dttMedium tdtHigh hb3 q_MH,
      stz lhLow suitLow dttHigh tdtHigh hb1 q_HH,
      stz lhMedium suitVeryLow dttHigh tdtHigh hb2 q_HH,
      stz lhHigh suitVeryLow dttHigh tdtHigh hb3 q_HH,
      wa1, wa2, wa3, wa4, wa5, wa6, wa7, wa8, wa9, wa10, wa11, wa12, wa13,
      wb1, wb2, wb3, wb4, wb5, wb6, wb7, wb8, wb9, wb10, wb11, wb12, wb13,
      wc1, wc2, wc3, wc4, wc5, wc6, wc7, wc8, wc9, wc10, wc11, wc12, wc13,
      c1, c2, c3, c4, c5, c6, e1, e2, e3, za1, za2, za3, mc, mcf, min_self,
      yb1, yb2, yb3, yc1, yc2, yc3, yd1, yd2, yd3, ye1, ye2, ye3, max_self,
      sliceDen]
    ring
  have hN : sumNum fis_create (fuzzInputs x 0 0 1) = sliceNum x := by
    simp only [sumNum, aggAt, fis_create, List.foldr_cons, List.foldr_nil,
      List.map_cons, List.map_nil, List.sum_cons, List.sum_nil, suit_range,
      st1, st2, st3, st28, mRule_cons,
      stz lhLow suitHigh dttMedium tdtLow hb1 q_ML,
      stz lhMedium suitMedium dttMedium tdtLow hb2 q_ML,
      stz lhHigh suitMedium dttMedium tdtLow hb3 q_ML,
      stz lhLow suitMedium dttHigh tdtLow hb1 q_HL,
      stz lhMedium suitMedium dttHigh tdtLow hb2 q_HL,
      stz lhHigh suitLow dttHigh tdtLow hb3 q_HL,
      stz lhLow suitHigh dttLow tdtMedium hb1 q_LM,
      stz lhMedium suitMedium dttLow tdtMedium hb2 q_LM,
      stz lhHigh suitMedium dttLow tdtMedium hb3 q_LM,
      stz lhLow suitMedium dttMedium tdtMedium hb1 q_MM,
      stz lhMedium suitLow dttMedium tdtMedium hb2 q_MM,
      stz lhHigh suitLow dttMedium tdtMedium hb3 q_MM,
      stz lhLow suitMedium dttHigh tdtMedium hb1 q_HM,
      stz lhMedium suitLow dttHigh tdtMedium hb2 q_HM,
      stz lhHigh suitVeryLow dttHigh tdtMedium hb3 q_HM,
      stz lhLow suitMedium dttLow tdtHigh hb1 q_LH,
      stz lhMedium suitMedium dttLow tdtHigh hb2 q_LH,
      stz lhHigh suitLow dttLow tdtHigh hb3 q_LH,
      stz lhLow suitMedium dttMedium tdtHigh hb1 q_MH,
      stz lhMedium suitLow dttMedium tdtHigh hb2 q_MH,
      stz lhHigh suitVeryLow dttMedium tdtHigh hb3 q_MH,
      stz lhLow suitLow dttHigh tdtHigh hb1 q_HH,
      stz lhMedium suitVeryLow dttHigh tdtHigh hb2 q_HH,
      stz lhHigh suitVeryLow dttHigh tdtHigh hb3 q_HH,
      wa1, wa2, wa3, wa4, wa5, wa6, wa7, wa8, wa9, wa10, wa11, wa12, wa13,
      wb1, wb2, wb3, wb4, wb5, wb6, wb7, wb8, wb9, wb10, wb11, wb12, wb13,
      wc1, wc2, wc3, wc4, wc5, wc6, wc7, wc8, wc9, wc10, wc11, wc12, wc13,
      c1, c2, c3, c4, c5, c6, e1, e2, e3, za1, za2, za3, mc, mcf, min_self,
      yb1, yb2, yb3, yc1, yc2, yc3, yd1, yd2, yd3, ye1, ye2, ye3, max_self,
      sliceNum]
    ring
  have hpos : 0 < sliceDen x := by
    rcases lt_or_le x 6 with h6 | h6
    · have := lhLow_pos hx0 h6
      rw [← hs1] at this
      unfold sliceDen
      rw [← hs1, ← hs2, ← hs3]
      linarith [hb2, hb3, hbm1, hbm2, hbm3]
    · have := lhHigh_pos (by linarith) hx10
      rw [← hs3] at this
      unfold sliceDen
      rw [← hs1, ← hs2, ← hs3]
      linarith [hb1, hb2, hbm1, hbm2, hbm3]
  simp only [fis_solve, hD, hN]
  rw [if_neg (ne_of_gt hpos)]

theorem piece1_mono : ∀ x y : ℚ, (0:ℚ) ≤ x → x ≤ y → y ≤ (5/6:ℚ) →
    sliceVal y ≤ sliceVal x := by
  intro x y hx hxy hy
  have hm0 : min (0:ℚ) (4/5) = 0 := by norm_num
  have hs1x : memDeg lhLow x = (6 - x) / 6 := lhLow_eval_in (by linarith) (by linarith)
  have hs2x : memDeg lhMedium x = 0 := lhMedium_eval_out_lo (by linarith)
  have hs3x : memDeg lhHigh x = 0 := lhHigh_eval_out (by linarith)
  have hs1y : memDeg lhLow y = (6 - y) / 6 := lhLow_eval_in (by linarith) (by linarith)
  have hs2y : memDeg lhMedium y = 0 := lhMedium_eval_out_lo (by linarith)
  have hs3y : memDeg lhHigh y = 0 := lhHigh_eval_out (by linarith)
  have hm1x : min ((6 - x) / 6) (4/5 : ℚ) = 4/5 := min_eq_right (by linarith)
  have hm1y : min ((6 - y) / 6) (4/5 : ℚ) = 4/5 := min_eq_right (by linarith)
  simp only [sliceVal, sliceNum, sliceDen, hs1x, hs1y, hs2x, hs2y, hs3x, hs3y,
    hm1x, hm1y, hm0]
  rw [div_le_div_iff (by linarith) (by linarith)]
  ring_nf
  linarith

theorem piece2_mono : ∀ x y : ℚ, (5/6:ℚ) ≤ x → x ≤ y → y ≤ (6/5:ℚ) →
    sliceVal y ≤ sliceVal x := by
  intro x y hx hxy hy
  have hm0 : min (0:ℚ) (4/5) = 0 := by norm_num
  have hs1x : memDeg lhLow x = (6 - x) / 6 := lhLow_eval_in (by linarith) (by linarith)
  have hs2x : memDeg lhMedium x = (x - 5/6) / (25/6) := lhMedium_eval_rise (by linarith) (by linarith)
  have hs3x : memDeg lhHigh x = 0 := lhHigh_eval_out (by linarith)
  have hs1y : memDeg lhLow y = (6 - y) / 6 := lhLow_eval_in (by linarith) (by linarith)
  have hs2y : memDeg lhMedium y = (y - 5/6) / (25/6) := lhMedium_eval_rise (by linarith) (by linarith)
  have hs3y : memDeg lhHigh y = 0 := lhHigh_eval_out (by linarith)
  have hm1x : min ((6 - x) / 6) (4/5 : ℚ) = 4/5 := min_eq_right (by linarith)
  have hm1y : min ((6 - y) / 6) (4/5 : ℚ) = 4/5 := min_eq_right (by linarith)
  have hm2x : min ((x - 5/6) / (25/6)) (4/5 : ℚ) = (x - 5/6) / (25/6) := min_eq_left (by linarith)
  have hm2y : min ((y - 5/6) / (25/6)) (4/5 : ℚ) = (y - 5/6) / (25/6) := min_eq_left (by linarith)
  simp only [sliceVal, sliceNum, sliceDen, hs1x, hs1y, hs2x, hs2y, hs3x, hs3y,
    hm1x, hm1y, hm2x, hm2y, hm0]
  rw [div_le_div_iff (by linarith) (by linarith)]
  ring_nf
  linarith

theorem piece3_mono : ∀ x y : ℚ, (6/5:ℚ) ≤ x → x ≤ y → y ≤ (4:ℚ) →
    sliceVal y ≤ sliceVal x := by
  intro x y hx hxy hy
  have hm0 : min (0:ℚ) (4/5) = 0 := by norm_num
  have hs1x : memDeg lhLow x = (6 - x) / 6 := lhLow_eval_in (by linarith) (by linarith)
  have hs2x : memDeg lhMedium x = (x - 5/6) / (25/6) := lhMedium_eval_rise (by linarith) (by linarith)
  have hs3x : memDeg lhHigh x = 0 := lhHigh_eval_out (by linarith)
  have hs1y : memDeg lhLow y = (6 - y) / 6 := lhLow_eval_in (by linarith) (by linarith)
  have hs2y : memDeg lhMedium y = (y - 5/6) / (25/6) := lhMedium_eval_rise (by linarith) (by linarith)
  have hs3y : memDeg lhHigh y = 0 := lhHigh_eval_out (by linarith)
  have hm1x : min ((6 - x) / 6) (4/5 : ℚ) = (6 - x) / 6 := min_eq_left (by linarith)
  have hm1y : min ((6 - y) / 6) (4/5 : ℚ) = (6 - y) / 6 := min_eq_left (by linarith)
  have hm2x : min ((x - 5/6) / (25/6)) (4/5 : ℚ) = (x - 5/6) / (25/6) := min_eq_left (by linarith)
  have hm2y : min ((y - 5/6) / (25/6)) (4/5 : ℚ) = (y - 5/6) / (25/6) := min_eq_left (by linarith)
  simp only [sliceVal, sliceNum, sliceDen, hs1x, hs1y, hs2x, hs2y, hs3x, hs3y,
    hm1x, hm1y, hm2x, hm2y, hm0]
  rw [div_le_div_iff (by linarith) (by linarith)]
  ring_nf
  linarith

theorem piece4_mono : ∀ x y : ℚ, (4:ℚ) ≤ x → x ≤ y → y ≤ (25/6:ℚ) →
    sliceVal y ≤ sliceVal x := by
  intro x y hx hxy hy
  have hm0 : min (0:ℚ) (4/5) = 0 := by norm_num
  have hs1x : memDeg lhLow x = (6 - x) / 6 := lhLow_eval_in (by linarith) (by linarith)
  have hs2x : memDeg lhMedium x = (x - 5/6) / (25/6) := lhMedium_eval_rise (by linarith) (by linarith)
  have hs3x : memDeg lhHigh x = (x - 4) / 6 := lhHigh_eval_rise (by linarith) (by linarith)
  have hs1y : memDeg lhLow y = (6 - y) / 6 := lhLow_eval_in (by linarith) (by linarith)
  have hs2y : memDeg lhMedium y = (y - 5/6) / (25/6) := lhMedium_eval_rise (by linarith) (by linarith)
  have hs3y : memDeg lhHigh y = (y - 4) / 6 := lhHigh_eval_rise (by linarith) (by linarith)
  have hm1x : min ((6 - x) / 6) (4/5 : ℚ) = (6 - x) / 6 := min_eq_left (by linarith)
  have hm1y : min ((6 - y) / 6) (4/5 : ℚ) = (6 - y) / 6 := min_eq_left (by linarith)
  have hm2x : min ((x - 5/6) / (25/6)) (4/5 : ℚ) = (x - 5/6) / (25/6) := min_eq_left (by linarith)
  have hm2y : min ((y - 5/6) / (25/6)) (4/5 : ℚ) = (y - 5/6) / (25/6) := min_eq_left (by linarith)
  have hm3x : min ((x - 4) / 6) (4/5 : ℚ) = (x - 4) / 6 := min_eq_left (by linarith)
  have hm3y : min ((y - 4) / 6) (4/5 : ℚ) = (y - 4) / 6 := min_eq_left (by linarith)
  simp only [sliceVal, sliceNum, sliceDen, hs1x, hs1y, hs2x, hs2y, hs3x, hs3y,
    hm1x, hm1y, hm2x, hm2y, hm3x, hm3y, hm0]
  rw [div_le_div_iff (by linarith) (by linarith)]
  ring_nf
  linarith

theorem piece5_mono : ∀ x y : ℚ, (25/6:ℚ) ≤ x → x ≤ y → y ≤ (5:ℚ) →
    sliceVal y ≤ sliceVal x := by
  intro x y hx hxy hy
  have hm0 : min (0:ℚ) (4/5) = 0 := by norm_num
  have hs1x : memDeg lhLow x = (6 - x) / 6 := lhLow_eval_in (by linarith) (by linarith)
  have hs2x : memDeg lhMedium x = (x - 5/6) / (25/6) := lhMedium_eval_rise (by linarith) (by linarith)
  have hs3x : memDeg lhHigh x = (x - 4) / 6 := lhHigh_eval_rise (by linarith) (by linarith)
  have hs1y : memDeg lhLow y = (6 - y) / 6 := lhLow_eval_in (by linarith) (by linarith)
  have hs2y : memDeg lhMedium y = (y - 5/6) / (25/6) := lhMedium_eval_rise (by linarith) (by linarith)
  have hs3y : memDeg lhHigh y = (y - 4) / 6 := lhHigh_eval_rise (by linarith) (by linarith)
  have hm1x : min ((6 - x) / 6) (4/5 : ℚ) = (6 - x) / 6 := min_eq_left (by linarith)
  have hm1y : min ((6 - y) / 6) (4/5 : ℚ) = (6 - y) / 6 := min_eq_left (by linarith)
  have hm2x : min ((x - 5/6) / (25/6)) (4/5 : ℚ) = 4/5 := min_eq_right (by linarith)
  have hm2y : min ((y - 5/6) / (25/6)) (4/5 : ℚ) = 4/5 := min_eq_right (by linarith)
  have hm3x : min ((x - 4) / 6) (4/5 : ℚ) = (x - 4) / 6 := min_eq_left (by linarith)
  have hm3y : min ((y - 4) / 6) (4/5 : ℚ) = (y - 4) / 6 := min_eq_left (by linarith)
  simp only [sliceVal, sliceNum, sliceDen, hs1x, hs1y, hs2x, hs2y, hs3x, hs3y,
    hm1x, hm1y, hm2x, hm2y, hm3x, hm3y, hm0]
  rw [div_le_div_iff (by linarith) (by linarith)]
  ring_nf
  linarith

theorem piece6_mono : ∀ x y : ℚ, (5:ℚ) ≤ x → x ≤ y → y ≤ (35/6:ℚ) →
    sliceVal y ≤ sliceVal x := by
  intro x y hx hxy hy
  have hm0 : min (0:ℚ) (4/5) = 0 := by norm_num
  have hs1x : memDeg lhLow x = (6 - x) / 6 := lhLow_eval_in (by linarith) (by linarith)
  have hs2x : memDeg lhMedium x = (55/6 - x) / (25/6) := lhMedium_eval_fall (by linarith) (by linarith)
  have hs3x : memDeg lhHigh x = (x - 4) / 6 := lhHigh_eval_rise (by linarith) (by linarith)
  have hs1y : memDeg lhLow y = (6 - y) / 6 := lhLow_eval_in (by linarith) (by linarith)
  have hs2y : memDeg lhMedium y = (55/6 - y) / (25/6) := lhMedium_eval_fall (by linarith) (by linarith)
  have hs3y : memDeg lhHigh y = (y - 4) / 6 := lhHigh_eval_rise (by linarith) (by linarith)
  have hm1x : min ((6 - x) / 6) (4/5 : ℚ) = (6 - x) / 6 := min_eq_left (by linarith)
  have hm1y : min ((6 - y) / 6) (4/5 : ℚ) = (6 - y) / 6 := min_eq_left (by linarith)
  have hm2x : min ((55/6 - x) / (25/6)) (4/5 : ℚ) = 4/5 := min_eq_right (by linarith)
  have hm2y : min ((55/6 - y) / (25/6)) (4/5 : ℚ) = 4/5 := min_eq_right (by linarith)
  have hm3x : min ((x - 4) / 6) (4/5 : ℚ) = (x - 4) / 6 := min_eq_left (by linarith)
  have hm3y : min ((y - 4) / 6) (4/5 : ℚ) = (y - 4) / 6 := min_eq_left (by linarith)
  simp only [sliceVal, sliceNum, sliceDen, hs1x, hs1y, hs2x, hs2y, hs3x, hs3y,
    hm1x, hm1y, hm2x, hm2y, hm3x, hm3y, hm0]
  rw [div_le_div_iff (by linarith) (by linarith)]
  ring_nf
  linarith

theorem piece7_mono : ∀ x y : ℚ, (35/6:ℚ) ≤ x → x ≤ y → y ≤ (6:ℚ) →
    sliceVal y ≤ sliceVal x := by
  intro x y hx hxy hy
  have hm0 : min (0:ℚ) (4/5) = 0 := by norm_num
  have hs1x : memDeg lhLow x = (6 - x) / 6 := lhLow_eval_in (by linarith) (by linarith)
  have hs2x : memDeg lhMedium x = (55/6 - x) / (25/6) := lhMedium_eval_fall (by linarith) (by linarith)
  have hs3x : memDeg lhHigh x = (x - 4) / 6 := lhHigh_eval_rise (by linarith) (by linarith)
  have hs1y : memDeg lhLow y = (6 - y) / 6 := lhLow_eval_in (by linarith) (by linarith)
  have hs2y : memDeg lhMedium y = (55/6 - y) / (25/6) := lhMedium_eval_fall (by linarith) (by linarith)
  have hs3y : memDeg lhHigh y = (y - 4) / 6 := lhHigh_eval_rise (by linarith) (by linarith)
  have hm1x : min ((6 - x) / 6) (4/5 : ℚ) = (6 - x) / 6 := min_eq_left (by linarith)
  have hm1y : min ((6 - y) / 6) (4/5 : ℚ) = (6 - y) / 6 := min_eq_left (by linarith)
  have hm2x : min ((55/6 - x) / (25/6)) (4/5 : ℚ) = (55/6 - x) / (25/6) := min_eq_left (by linarith)
  have hm2y : min ((55/6 - y) / (25/6)) (4/5 : ℚ) = (55/6 - y) / (25/6) := min_eq_left (by linarith)
  have hm3x : min ((x - 4) / 6) (4/5 : ℚ) = (x - 4) / 6 := min_eq_left (by linarith)
  have hm3y : min ((y - 4) / 6) (4/5 : ℚ) = (y - 4) / 6 := min_eq_left (by linarith)
  simp only [sliceVal, sliceNum, sliceDen, hs1x, hs1y, hs2x, hs2y, hs3x, hs3y,
    hm1x, hm1y, hm2x, hm2y, hm3x, hm3y, hm0]
  rw [div_le_div_iff (by linarith) (by linarith)]
  ring_nf
  linarith

theorem piece8_mono : ∀ x y : ℚ, (6:ℚ) ≤ x → x ≤ y → y ≤ (44/5:ℚ) →
    sliceVal y ≤ sliceVal x := by
  intro x y hx hxy hy
  have hm0 : min (0:ℚ) (4/5) = 0 := by norm_num
  have hs1x : memDeg lhLow x = 0 := lhLow_eval_out (by linarith)
  have hs2x : memDeg lhMedium x = (55/6 - x) / (25/6) := lhMedium_eval_fall (by linarith) (by linarith)
  have hs3x : memDeg lhHigh x = (x - 4) / 6 := lhHigh_eval_rise (by linarith) (by linarith)
  have hs1y : memDeg lhLow y = 0 := lhLow_eval_out (by linarith)
  have hs2y : memDeg lhMedium y = (55/6 - y) / (25/6) := lhMedium_eval_fall (by linarith) (by linarith)
  have hs3y : memDeg lhHigh y = (y - 4) / 6 := lhHigh_eval_rise (by linarith) (by linarith)
  have hm2x : min ((55/6 - x) / (25/6)) (4/5 : ℚ) = (55/6 - x) / (25/6) := min_eq_left (by linarith)
  have hm2y : min ((55/6 - y) / (25/6)) (4/5 : ℚ) = (55/6 - y) / (25/6) := min_eq_left (by linarith)
  have hm3x : min ((x - 4) / 6) (4/5 : ℚ) = (x - 4) / 6 := min_eq_left (by linarith)
  have hm3y : min ((y - 4) / 6) (4/5 : ℚ) = (y - 4) / 6 := min_eq_left (by linarith)
  simp only [sliceVal, sliceNum, sliceDen, hs1x, hs1y, hs2x, hs2y, hs3x, hs3y,
    hm2x, hm2y, hm3x, hm3y, hm0]
  rw [div_le_div_iff (by linarith) (by linarith)]
  ring_nf
  linarith

theorem piece9_mono : ∀ x y : ℚ, (44/5:ℚ) ≤ x → x ≤ y → y ≤ (55/6:ℚ) →
    sliceVal y ≤ sliceVal x := by
  intro x y hx hxy hy
  have hm0 : min (0:ℚ) (4/5) = 0 := by norm_num
  have hs1x : memDeg lhLow x = 0 := lhLow_eval_out (by linarith)
  have hs2x : memDeg lhMedium x = (55/6 - x) / (25/6) := lhMedium_eval_fall (by linarith) (by linarith)
  have hs3x : memDeg lhHigh x = (x - 4) / 6 := lhHigh_eval_rise (by linarith) (by linarith)
  have hs1y : memDeg lhLow y = 0 := lhLow_eval_out (by linarith)
  have hs2y : memDeg lhMedium y = (55/6 - y) / (25/6) := lhMedium_eval_fall (by linarith) (by linarith)
  have hs3y : memDeg lhHigh y = (y - 4) / 6 := lhHigh_eval_rise (by linarith) (by linarith)
  have hm2x : min ((55/6 - x) / (25/6)) (4/5 : ℚ) = (55/6 - x) / (25/6) := min_eq_left (by linarith)
  have hm2y : min ((55/6 - y) / (25/6)) (4/5 : ℚ) = (55/6 - y) / (25/6) := min_eq_left (by linarith)
  have hm3x : min ((x - 4) / 6) (4/5 : ℚ) = 4/5 := min_eq_right (by linarith)
  have hm3y : min ((y - 4) / 6) (4/5 : ℚ) = 4/5 := min_eq_right (by linarith)
  simp only [sliceVal, sliceNum, sliceDen, hs1x, hs1y, hs2x, hs2y, hs3x, hs3y,
    hm2x, hm2y, hm3x, hm3y, hm0]
  rw [div_le_div_iff (by linarith) (by linarith)]
  ring_nf
  linarith

theorem piece10_mono : ∀ x y : ℚ, (55/6:ℚ) ≤ x → x ≤ y → y ≤ (10:ℚ) →
    sliceVal y ≤ sliceVal x := by
  intro x y hx hxy hy
  have hm0 : min (0:ℚ) (4/5) = 0 := by norm_num
  have hs1x : memDeg lhLow x = 0 := lhLow_eval_out (by linarith)
  have hs2x : memDeg lhMedium x = 0 := lhMedium_eval_out_hi (by linarith)
  have hs3x : memDeg lhHigh x = (x - 4) / 6 := lhHigh_eval_rise (by linarith) (by linarith)
  have hs1y : memDeg lhLow y = 0 := lhLow_eval_out (by linarith)
  have hs2y : memDeg lhMedium y = 0 := lhMedium_eval_out_hi (by linarith)
  have hs3y : memDeg lhHigh y = (y - 4) / 6 := lhHigh_eval_rise (by linarith) (by linarith)
  have hm3x : min ((x - 4) / 6) (4/5 : ℚ) = 4/5 := min_eq_right (by linarith)
  have hm3y : min ((y - 4) / 6) (4/5 : ℚ) = 4/5 := min_eq_right (by linarith)
  simp only [sliceVal, sliceNum, sliceDen, hs1x, hs1y, hs2x, hs2y, hs3x, hs3y,
    hm3x, hm3y, hm0]
  rw [div_le_div_iff (by linarith) (by linarith)]
  ring_nf
  linarith

/-- Glue two adjacent monotone-nonincreasing intervals. -/
theorem mono_glue {f : ℚ → ℚ} {a b c : ℚ}
    (h1 : ∀ x y, a ≤ x → x ≤ y → y ≤ b → f y ≤ f x)
    (h2 : ∀ x y, b ≤ x → x ≤ y → y ≤ c → f y ≤ f x) :
    ∀ x y, a ≤ x → x ≤ y → y ≤ c → f y ≤ f x := by
  intro x y hx hxy hy
  rcases le_total y b with h | h
  · exact h1 x y hx hxy h
  · rcases le_total x b with h' | h'
    · exact le_trans (h2 b y le_rfl h hy) (h1 x b hx h' le_rfl)
    · exact h2 x y h' hxy hy

/-- On the whole load interval `[0, 10]` the slice output is
nonincreasing. -/
theorem slice_mono : ∀ x y : ℚ, 0 ≤ x → x ≤ y → y ≤ 10 →
    sliceVal y ≤ sliceVal x := by
  have g2 := mono_glue piece1_mono piece2_mono
  have g3 := mono_glue g2 piece3_mono
  have g4 := mono_glue g3 piece4_mono
  have g5 := mono_glue g4 piece5_mono
  have g6 := mono_glue g5 piece6_mono
  have g7 := mono_glue g6 piece7_mono
  have g8 := mono_glue g7 piece8_mono
  have g9 := mono_glue g8 piece9_mono
  exact mono_glue g9 piece10_mono

/-- C7: with distance-to-task and total-distance-travelled held at the
centers of their Low terms (0 and 0) and capability 1, the suitability
output of the solver does not increase as the load increases from the
center of its Low term (0) to the center of its High term (10): for all
`x ≤ y` in that interval the output at `y` is at most the output at `x`. -/
theorem C7_load_monotone (x y : ℚ) (hx0 : 0 ≤ x) (hxy : x ≤ y)
    (hy10 : y ≤ 10) :
    ∀ u v : ℚ, fis_solve fis_create x 0 0 1 = some u →
      fis_solve fis_create y 0 0 1 = some v → v ≤ u := by
  intro u v hu hv
  rw [solve_slice x hx0 (by linarith)] at hu
  rw [solve_slice y (by linarith) hy10] at hv
  have h1 : sliceVal x = u := Option.some.inj hu
  have h2 : sliceVal y = v := Option.some.inj hv
  rw [← h1, ← h2]
  exact slice_mono x y hx0 hxy hy10

/-- C7 witness: the slice outputs at loads 2 and 3 are 4355/489 and
12895/1536, and the theorem gives the expected decrease. -/
theorem C7_load_monotone_witness :
    fis_solve fis_create 2 0 0 1 = some (4355/489) ∧
    fis_solve fis_create 3 0 0 1 = some (12895/1536) ∧
    (12895/1536 : ℚ) ≤ 4355/489 := by
  have h2 : fis_solve fis_create 2 0 0 1 = some (4355/489) := by
    rw [solve_slice 2 (by norm_num) (by norm_num)]
    norm_num [sliceNum, sliceDen, memDeg, trimf, lhLow, lhMedium, lhHigh]
  have h3 : fis_solve fis_create 3 0 0 1 = some (12895/1536) := by
    rw [solve_slice 3 (by norm_num) (by norm_num)]
    norm_num [sliceNum, sliceDen, memDeg, trimf, lhLow, lhMedium, lhHigh]
  exact ⟨h2, h3,
    C7_load_monotone 2 3 (by norm_num) (by norm_num) (by norm_num) _ _ h2 h3⟩

end FIS
